import Mathlib

/-!
# `ecosystem.config.js`: the process-manager configuration of FBL_OTA_RAG

The repository is one JavaScript module whose export is an object literal
`{ apps: [ {...}, {...} ] }`.  The literal is embedded as data: an object is
the ordered list of its `key: value` pairs, a property read is a lookup in
that list (`undefined`, here `none`, for a key the literal does not give).

The restart policy and the log sink the specification describes (sections 4.3
and 4.2) are not part of the repository; the second half of the definitions
models them from the specification and runs them on the parameters the
configuration gives.
-/

namespace Ecosystem

/-! ## The object literal -/

/-- The values that occur in the literal: strings, non-negative integer
numbers, booleans and one flat object of string values (`env`). -/
inductive JsValue where
  | str (s : String)
  | num (n : Nat)
  | bool (b : Bool)
  | obj (fields : List (String × String))
  deriving DecidableEq, Repr

/-- An object literal: its `key: value` pairs in source order. -/
abbrev JsObject := List (String × JsValue)

/-- Property read `o.k`: the value the literal gives for `k`, `none` for
`undefined`. -/
def JsObject.get (o : JsObject) (k : String) : Option JsValue :=
  o.lookup k

/-- The keys of an object literal, in source order. -/
def JsObject.keys (o : JsObject) : List String :=
  o.map Prod.fst

/-- Property read of a string-valued key. -/
def JsObject.getStr (o : JsObject) (k : String) : Option String :=
  match o.get k with
  | some (.str s) => some s
  | _ => none

/-- Property read of a number-valued key. -/
def JsObject.getNum (o : JsObject) (k : String) : Option Nat :=
  match o.get k with
  | some (.num n) => some n
  | _ => none

/-- Property read of a boolean-valued key. -/
def JsObject.getBool (o : JsObject) (k : String) : Option Bool :=
  match o.get k with
  | some (.bool b) => some b
  | _ => none

/-- First element of `apps` (source lines 2-20): the application server. -/
def app_rag : JsObject :=
  [ ("name", .str "fbl-ota-rag"),
    ("script", .str "uvicorn"),
    ("args", .str "main:app --host 0.0.0.0 --port 8000"),
    ("interpreter", .str "/Users/abdelazizmoustafa/Desktop/prj/simple_rag/venv/bin/python3"),
    ("env", .obj [("NODE_ENV", "production")]),
    ("autorestart", .bool true),
    ("watch", .bool false),
    ("max_memory_restart", .str "1G"),
    ("exp_backoff_restart_delay", .num 100),
    ("restart_delay", .num 1000),
    ("max_restarts", .num 10),
    ("error_file", .str "logs/err.log"),
    ("out_file", .str "logs/out.log"),
    ("merge_logs", .bool true),
    ("time", .bool true) ]

/-- Second element of `apps` (source lines 20-34): the tunnel client. -/
def app_tunnel : JsObject :=
  [ ("name", .str "fbl-ota-tunnel"),
    ("script", .str "cloudflared"),
    ("args", .str "tunnel --config /Users/abdelazizmoustafa/Desktop/prj/simple_rag/cloudflared.yml run"),
    ("autorestart", .bool true),
    ("watch", .bool false),
    ("max_memory_restart", .str "1G"),
    ("exp_backoff_restart_delay", .num 100),
    ("restart_delay", .num 1000),
    ("max_restarts", .num 10),
    ("error_file", .str "logs/tunnel-err.log"),
    ("out_file", .str "logs/tunnel-out.log"),
    ("merge_logs", .bool true),
    ("time", .bool true) ]

/-- The exported list `module.exports.apps`. -/
def apps : List JsObject := [app_rag, app_tunnel]

/-! ## Reading the configuration -/

/-- The keys of an entry that hold its restart policy. -/
def restartPolicyKeys : List String :=
  ["autorestart", "max_restarts", "restart_delay", "exp_backoff_restart_delay"]

/-- The keys of an entry that hold its log destinations. -/
def logDestinationKeys : List String :=
  ["out_file", "error_file"]

/-- The keys that stand for the ProcessSpec fields of specification section 3,
in the order of that section: name, command, args, env, memory limit,
autorestart, restart cap, restart delay, backoff base, stdout path, stderr
path, merge flag. -/
def processSpecKeys : List String :=
  ["name", "script", "args", "env", "max_memory_restart", "autorestart",
   "max_restarts", "restart_delay", "exp_backoff_restart_delay",
   "out_file", "error_file", "merge_logs"]

/-- The entries of a list of objects that a lookup by `name` selects. -/
def findByName (l : List JsObject) (n : String) : List JsObject :=
  l.filter (fun a => decide (a.getStr "name" = some n))

/-- Split a character sequence at every occurrence of `sep`; two adjacent
separators, or one at either end, give an empty piece. -/
def splitOn (sep : Char) : List Char → List (List Char)
  | [] => [[]]
  | c :: cs =>
    if c = sep then [] :: splitOn sep cs
    else match splitOn sep cs with
      | [] => [[c]]
      | t :: ts => (c :: t) :: ts

/-- Split a string on the space character. -/
def tokenize (s : String) : List String :=
  (splitOn ' ' s.data).map String.mk

/-- The tokens of the `args` string of an entry (none when the entry gives no
string `args`). -/
def argTokens (a : JsObject) : Option (List String) :=
  (a.getStr "args").map tokenize

/-- Quotes, the backslash and the shell metacharacters
`$`, backtick, `;`, `|`, `&`, `<`, `>`, `*`, `?`. -/
def shellSpecialChars : List Char :=
  [Char.ofNat 39, Char.ofNat 34, Char.ofNat 92, Char.ofNat 36, Char.ofNat 96,
   Char.ofNat 59, Char.ofNat 124, Char.ofNat 38, Char.ofNat 60, Char.ofNat 62,
   Char.ofNat 42, Char.ofNat 63]

/-- A token free of quotes, backslashes and shell metacharacters. -/
def shellPlain (t : String) : Bool :=
  t.data.all (fun c => !shellSpecialChars.contains c)

/-- The four log paths of the configuration, with the entry and the stream that
writes each: `(position in apps, key, path)`. -/
def logPaths (l : List JsObject) : List (Nat × String × String) :=
  (l.enum.map (fun p : Nat × JsObject =>
    logDestinationKeys.filterMap (fun k => (p.2.getStr k).map (fun v => (p.1, k, v))))).flatten

/-- The components of a path: the pieces between `/` characters. -/
def pathComponents (p : String) : List String :=
  (splitOn '/' p.data).map String.mk

/-- A relative path that names a file directly inside the directory `logs/`:
its components are `logs` and one file name that is not empty, `.` or `..`. -/
def underLogsDir (p : String) : Bool :=
  match pathComponents p with
  | [d, f] => decide (d = "logs") && decide (f ≠ "") && decide (f ≠ ".") && decide (f ≠ "..")
  | _ => false

/-! ## The supervisor of the specification

None of what follows is code of the repository: the configuration is written
for an external process manager.  The records, the restart policy and the log
sink are taken from sections 3, 4.2, 4.3 and 4.4 of the specification. -/

/-- Modelled from the spec: the status of a supervised process (section 3,
ProcessState.status); the repository has no supervisor. -/
inductive Status where
  | Starting
  | Running
  | Exited
  | Restarting
  | Stopped
  | FailedPermanently
  deriving DecidableEq, Repr

/-- Modelled from the spec: the ProcessSpec record of section 3, field by
field; the repository has no such record. -/
structure ProcessSpec where
  name : String
  command : String
  args : List String
  env : List (String × String)
  maxMemoryBytes : Option Nat
  autorestart : Bool
  maxRestarts : Option Nat
  restartDelayMs : Nat
  expBackoffBaseMs : Nat
  stdoutPath : String
  stderrPath : String
  mergeLogs : Bool
  deriving DecidableEq, Repr

/-- Modelled from the spec: the ProcessState record of section 3; the
repository has no such record. -/
structure ProcessState where
  spec : ProcessSpec
  pid : Option Nat
  status : Status
  restartCount : Nat
  lastExitCode : Option Int
  lastExitTime : Option Nat
  deriving DecidableEq, Repr

/-- Modelled from the spec: the ExitEvent of section 4.1,
`ExitEvent{code, signal, time}`; the repository has no process handle. -/
structure ExitEvent where
  code : Int
  signal : Option Nat
  time : Nat
  deriving DecidableEq, Repr

/-- Modelled from the spec: the Decision of section 4.3,
`Decision{restart: bool, delayMs}`; the repository has no restart policy. -/
structure Decision where
  restart : Bool
  delayMs : Nat
  deriving DecidableEq, Repr

/-- The value of a decimal digit character. -/
def digitValue (c : Char) : Option Nat :=
  if 48 ≤ c.toNat ∧ c.toNat ≤ 57 then some (c.toNat - 48) else none

/-- The number a non-empty sequence of decimal digits writes, most significant
digit first, continuing from `acc`. -/
def digitsValue : Nat → List Char → Option Nat
  | acc, [] => some acc
  | acc, c :: cs =>
    match digitValue c with
    | some d => digitsValue (acc * 10 + d) cs
    | none => none

/-- Modelled from the spec: the memory threshold in bytes that a string such as
`1G` stands for (section 3, `maxMemoryBytes`), a decimal count followed by one
of the binary units K, M, G; the repository has no reader of this string. -/
def parseMemory (s : String) : Option Nat :=
  match s.data.reverse with
  | [] => none
  | u :: rest =>
    match rest.reverse with
    | [] => none
    | d :: ds =>
      let unit : Option Nat :=
        if u = 'K' then some 1024
        else if u = 'M' then some (1024 * 1024)
        else if u = 'G' then some (1024 * 1024 * 1024)
        else none
      match unit, digitsValue 0 (d :: ds) with
      | some m, some n => some (n * m)
      | _, _ => none

/-- Modelled from the spec: the configuration loader of section 6, which the
specification leaves out of scope and the repository does not contain.  It
reads one entry of `apps` into a ProcessSpec: `script` is the command, `args`
is split into its tokens, a missing `env` is the empty mapping, and the
restart cap is optional; every other field must be given. -/
def loadSpec (a : JsObject) : Option ProcessSpec := do
  let name ← a.getStr "name"
  let command ← a.getStr "script"
  let args ← argTokens a
  let env :=
    match a.get "env" with
    | some (.obj fields) => fields
    | _ => []
  let autorestart ← a.getBool "autorestart"
  let restartDelayMs ← a.getNum "restart_delay"
  let expBackoffBaseMs ← a.getNum "exp_backoff_restart_delay"
  let stdoutPath ← a.getStr "out_file"
  let stderrPath ← a.getStr "error_file"
  let mergeLogs ← a.getBool "merge_logs"
  pure
    { name := name
      command := command
      args := args
      env := env
      maxMemoryBytes := (a.getStr "max_memory_restart").bind parseMemory
      autorestart := autorestart
      maxRestarts := a.getNum "max_restarts"
      restartDelayMs := restartDelayMs
      expBackoffBaseMs := expBackoffBaseMs
      stdoutPath := stdoutPath
      stderrPath := stderrPath
      mergeLogs := mergeLogs }

/-- Modelled from the spec: the backoff formula of section 4.3,
`delay = min(restartDelayMs + expBackoffBaseMs * 2^restartCount, capMs)`,
without jitter; the repository has no restart policy. -/
def backoffDelay (restartDelayMs expBackoffBaseMs restartCount capMs : Nat) : Nat :=
  min (restartDelayMs + expBackoffBaseMs * 2 ^ restartCount) capMs

/-- Modelled from the spec: `onExit(state, exitEvent) -> Decision` of section
4.3; the repository has no restart policy.  With `autorestart` false the
decision is `{false, 0}`; otherwise, when the restart count has reached the
cap, it is `{false, 0}` and the status becomes FailedPermanently; otherwise it
is `{true, delay}` with the backoff delay.  The cap `capMs` of the formula is
not a field of ProcessSpec and is a parameter here. -/
def onExit (capMs : Nat) (state : ProcessState) (_exitEvent : ExitEvent) :
    Decision × ProcessState :=
  if state.spec.autorestart = false then
    ({ restart := false, delayMs := 0 }, state)
  else
    match state.spec.maxRestarts with
    | some cap =>
      if state.restartCount ≥ cap then
        ({ restart := false, delayMs := 0 }, { state with status := Status.FailedPermanently })
      else
        ({ restart := true,
           delayMs := backoffDelay state.spec.restartDelayMs state.spec.expBackoffBaseMs
             state.restartCount capMs }, state)
    | none =>
      ({ restart := true,
         delayMs := backoffDelay state.spec.restartDelayMs state.spec.expBackoffBaseMs
           state.restartCount capMs }, state)

/-- Modelled from the spec: `launch(spec) -> ProcessState` of section 4.1 for a
launch that succeeds, observed once the process is up (Starting has become
Running); `pid` is the process id the system gave.  The repository has no
process handle. -/
def launch (spec : ProcessSpec) (pid : Nat) : ProcessState :=
  { spec := spec, pid := some pid, status := Status.Running, restartCount := 0,
    lastExitCode := none, lastExitTime := none }

/-- Modelled from the spec: what the Supervisor of section 4.4 does on one
ExitEvent when no manual stop or restart is pending; the repository has no
supervisor.  It records the exit, asks the restart policy, and applies the
decision: a restart relaunches the process (through Restarting and Starting,
observed again as Running, with the new process id `newPid`) and counts it in
`restartCount`; no restart leaves the process FailedPermanently when the
policy said so and Stopped otherwise. -/
def superviseExit (capMs : Nat) (state : ProcessState) (exitEvent : ExitEvent) (newPid : Nat) :
    Decision × ProcessState :=
  let exited : ProcessState :=
    { state with
      pid := none
      status := Status.Exited
      lastExitCode := some exitEvent.code
      lastExitTime := some exitEvent.time }
  match onExit capMs exited exitEvent with
  | (decision, judged) =>
    if decision.restart then
      (decision,
        { judged with
          pid := some newPid
          status := Status.Running
          restartCount := judged.restartCount + 1 })
    else if judged.status = Status.FailedPermanently then
      (decision, judged)
    else
      (decision, { judged with status := Status.Stopped })

/-- Modelled from the spec: the Supervisor's monitoring task for one process
over a sequence of consecutive exits (section 4.4, sequential per process by
section 5), each exit paired with the process id a relaunch would get.  The
result is the decisions in order and the state after the last exit.  The
repository has no supervisor. -/
def superviseExits (capMs : Nat) :
    ProcessState → List (ExitEvent × Nat) → List Decision × ProcessState
  | state, [] => ([], state)
  | state, (exitEvent, newPid) :: rest =>
    match superviseExit capMs state exitEvent newPid with
    | (decision, next) =>
      match superviseExits capMs next rest with
      | (decisions, final) => (decision :: decisions, final)

/-- The number of restarts among a sequence of decisions. -/
def restartsIn (decisions : List Decision) : Nat :=
  (decisions.filter (fun d => d.restart)).length

/-- Modelled from the spec: the two output streams of a child process that a
LogSink captures (section 4.2); the repository has no log sink. -/
inductive OutputStream where
  | stdout
  | stderr
  deriving DecidableEq, Repr

/-- Modelled from the spec: an attached LogSink (section 4.2), as the file the
writer of each stream appends to and whether the two streams go through one
shared writer; the repository has no log sink. -/
structure LogSink where
  stdoutFile : String
  stderrFile : String
  sharedWriter : Bool
  deriving DecidableEq, Repr

/-- Modelled from the spec: `attach(state, stdoutPath, stderrPath, merge)` of
section 4.2 for paths that can be written; the repository has no log sink.
Without `merge` each stream appends to its own given file.  With `merge` both
streams append to the same underlying writer; the specification does not say
on which of the two given files that writer is opened, so `mergedOn` names the
stream whose file it is.  The `state` argument of the specification only names
the child whose streams are redirected and is left out. -/
def attach (stdoutPath stderrPath : String) (merge : Bool) (mergedOn : OutputStream) :
    LogSink :=
  if merge then
    match mergedOn with
    | OutputStream.stdout =>
      { stdoutFile := stdoutPath, stderrFile := stdoutPath, sharedWriter := true }
    | OutputStream.stderr =>
      { stdoutFile := stderrPath, stderrFile := stderrPath, sharedWriter := true }
  else
    { stdoutFile := stdoutPath, stderrFile := stderrPath, sharedWriter := false }

/-- The file a stream of a child is appended to through its sink. -/
def LogSink.fileOf (sink : LogSink) : OutputStream → String
  | OutputStream.stdout => sink.stdoutFile
  | OutputStream.stderr => sink.stderrFile

/-- Modelled from the spec: the log writes of one configured process, as
`(position, stream, file)`: the Supervisor loads the entry and attaches a
LogSink with the paths and the merge flag of its ProcessSpec (sections 2 and
4.2); the repository has no supervisor. -/
def logWritesOf (i : Nat) (a : JsObject) (mergedOn : OutputStream) :
    List (Nat × OutputStream × String) :=
  match loadSpec a with
  | some s =>
    [ (i, OutputStream.stdout,
        (attach s.stdoutPath s.stderrPath s.mergeLogs mergedOn).fileOf OutputStream.stdout),
      (i, OutputStream.stderr,
        (attach s.stdoutPath s.stderrPath s.mergeLogs mergedOn).fileOf OutputStream.stderr) ]
  | none => []

/-- Modelled from the spec: the log writes of every configured process;
`mergedOn i` is the choice `attach` leaves open for the process at position
`i`.  The repository has no supervisor. -/
def logWrites (l : List JsObject) (mergedOn : Nat → OutputStream) :
    List (Nat × OutputStream × String) :=
  (l.enum.map (fun p : Nat × JsObject => logWritesOf p.1 p.2 (mergedOn p.1))).flatten

/-! ## The configuration as written -/

/-- C1: `apps` has exactly two entries, first the application server (name
`fbl-ota-rag`, script `uvicorn`), then the tunnel client (name
`fbl-ota-tunnel`, script `cloudflared`), and each entry gives every
restart-policy key (autorestart, max_restarts, restart_delay,
exp_backoff_restart_delay) and both log destinations (out_file, error_file). -/
theorem apps_two_entries_with_policy_and_logs :
    apps.length = 2 ∧
    apps.map (fun a => (a.get "name", a.get "script")) =
      [ (some (.str "fbl-ota-rag"), some (.str "uvicorn")),
        (some (.str "fbl-ota-tunnel"), some (.str "cloudflared")) ] ∧
    (∀ a ∈ apps, ∀ k ∈ restartPolicyKeys ++ logDestinationKeys, (a.get k).isSome = true) := by
  decide

/-- C2: the entries of `apps` at two different positions have different
names (and each has one), so a lookup by name selects at most one entry. -/
theorem apps_names_unique :
    (∀ i j : Fin apps.length, i ≠ j →
      (apps.get i).get "name" ≠ (apps.get j).get "name") ∧
    (∀ i : Fin apps.length, ((apps.get i).getStr "name").isSome = true) ∧
    (∀ n : String, (findByName apps n).length ≤ 1) := by
  refine ⟨by decide, by decide, ?_⟩
  intro n
  have h1 : app_rag.getStr "name" = some "fbl-ota-rag" := by decide
  have h2 : app_tunnel.getStr "name" = some "fbl-ota-tunnel" := by decide
  by_cases hn : n = "fbl-ota-rag"
  · subst hn
    simp [findByName, apps, List.filter_cons, h1, h2]
  · have hn2 : ¬ ("fbl-ota-rag" = n) := fun h => hn h.symm
    by_cases ht : "fbl-ota-tunnel" = n
    · simp [findByName, apps, List.filter_cons, h1, h2, hn2, ht]
    · simp [findByName, apps, List.filter_cons, h1, h2, hn2, ht]

/-- C3, as the configuration is written: every entry of `apps` gives every
ProcessSpec key except `env` (name, script, args, max_memory_restart,
autorestart, max_restarts, restart_delay, exp_backoff_restart_delay, out_file,
error_file, merge_logs); `env` is given by the first entry and not by the
second. -/
theorem apps_supply_spec_fields_but_env :
    (∀ a ∈ apps, ∀ k ∈ processSpecKeys.erase "env", (a.get k).isSome = true) ∧
    app_rag.get "env" = some (.obj [("NODE_ENV", "production")]) ∧
    app_tunnel.get "env" = none := by
  decide

/-- C3 fails as stated: the second entry of `apps`, the tunnel client, has no
`env`, so not every entry gives every ProcessSpec key. -/
theorem tunnel_entry_has_no_env :
    apps.get? 1 = some app_tunnel ∧ "env" ∈ processSpecKeys ∧
    app_tunnel.get "env" = none ∧
    ¬ (∀ a ∈ apps, ∀ k ∈ processSpecKeys, (a.get k).isSome = true) := by
  decide

/-- The log writes of `apps` are those of its two entries, each under its own
choice of the shared writer's file. -/
theorem logWrites_apps (mergedOn : Nat → OutputStream) :
    logWrites apps mergedOn =
      logWritesOf 0 app_rag (mergedOn 0) ++ (logWritesOf 1 app_tunnel (mergedOn 1) ++ []) :=
  rfl

/-- C7, as the configuration and the log sink of section 4.2 have it: the four
configured log paths (out_file and error_file of both entries) are pairwise
different and each is a relative path under `logs/`; both entries set
merge_logs to true, so the two streams of one process append through one
shared writer to one file, which is one of the two paths configured for that
process, and no file is written by two different processes. -/
theorem log_files_distinct_across_processes (mergedOn : Nat → OutputStream) :
    (logPaths apps).map (fun p => (p.1, p.2.1)) =
      [(0, "out_file"), (0, "error_file"), (1, "out_file"), (1, "error_file")] ∧
    ((logPaths apps).map (fun p => p.2.2)).Nodup ∧
    (∀ p ∈ logPaths apps,
      "logs/".data <+: p.2.2.data ∧ p.2.2.data.head? ≠ some '/' ∧ underLogsDir p.2.2 = true) ∧
    (∀ a ∈ apps, a.get "merge_logs" = some (.bool true)) ∧
    (logWrites apps mergedOn).map (fun w => (w.1, w.2.1)) =
      [ (0, OutputStream.stdout), (0, OutputStream.stderr),
        (1, OutputStream.stdout), (1, OutputStream.stderr) ] ∧
    (∀ x ∈ logWrites apps mergedOn, ∀ y ∈ logWrites apps mergedOn,
      x.1 ≠ y.1 → x.2.2 ≠ y.2.2) ∧
    (∀ x ∈ logWrites apps mergedOn, ∀ y ∈ logWrites apps mergedOn,
      x.1 = y.1 → x.2.2 = y.2.2) ∧
    (∀ x ∈ logWrites apps mergedOn, ∃ p ∈ logPaths apps, p.1 = x.1 ∧ p.2.2 = x.2.2) := by
  refine ⟨by decide, by decide, by decide, by decide, ?_⟩
  rw [logWrites_apps]
  generalize mergedOn 0 = m0
  generalize mergedOn 1 = m1
  cases m0 <;> cases m1 <;> decide

/-- C7 fails as stated: both entries set merge_logs to true, and with the
shared writer opened on the stdout file, the stdout and the stderr stream of
the first process are both appended to `logs/out.log` (with it opened on the
stderr file, both to `logs/err.log`), so the files the four streams write are
not pairwise different. -/
theorem merged_streams_write_one_file :
    (∀ a ∈ apps, a.get "merge_logs" = some (.bool true)) ∧
    (0, OutputStream.stdout, "logs/out.log") ∈ logWrites apps (fun _ => OutputStream.stdout) ∧
    (0, OutputStream.stderr, "logs/out.log") ∈ logWrites apps (fun _ => OutputStream.stdout) ∧
    ¬ ((logWrites apps (fun _ => OutputStream.stdout)).map (fun w => w.2.2)).Nodup ∧
    (0, OutputStream.stdout, "logs/err.log") ∈ logWrites apps (fun _ => OutputStream.stderr) ∧
    (0, OutputStream.stderr, "logs/err.log") ∈ logWrites apps (fun _ => OutputStream.stderr) ∧
    ¬ ((logWrites apps (fun _ => OutputStream.stderr)).map (fun w => w.2.2)).Nodup := by
  decide

/-- C9: split on the space character, the `args` of the first entry is the 5
tokens main:app, --host, 0.0.0.0, --port, 8000 and the `args` of the second is
the 4 tokens tunnel, --config, the cloudflared.yml path, run; no token is empty
or contains a quote, a backslash or a shell metacharacter, and the tokens
joined with single spaces are the original string. -/
theorem args_tokenize_unambiguously :
    apps.map argTokens =
      [ some ["main:app", "--host", "0.0.0.0", "--port", "8000"],
        some ["tunnel", "--config",
          "/Users/abdelazizmoustafa/Desktop/prj/simple_rag/cloudflared.yml", "run"] ] ∧
    (∀ a ∈ apps, ∀ ts ∈ argTokens a,
      (∀ t ∈ ts, t ≠ "" ∧ shellPlain t = true) ∧
      some (" ".intercalate ts) = a.getStr "args") ∧
    shellSpecialChars = "'\"\\$`;|&<>*?".data := by
  decide

/-- Reading a key of a literal with a first pair `a: b`. -/
theorem get_cons (a : String) (b : JsValue) (o : JsObject) (k : String) :
    JsObject.get ((a, b) :: o) k = if k = a then some b else JsObject.get o k := by
  by_cases h : k = a
  · simp [JsObject.get, List.lookup, h]
  · have hb : (k == a) = false := by simpa using h
    simp [JsObject.get, List.lookup, h, hb]

/-- Reading a key of the empty literal. -/
theorem get_nil (k : String) : JsObject.get [] k = none := rfl

/-- C8: both entries of `apps` give the same supervision policy (autorestart
true, watch false, max_memory_restart 1G, exp_backoff_restart_delay 100,
restart_delay 1000, max_restarts 10, merge_logs true, time true); on every key
other than name, script, args, interpreter, env, error_file and out_file the
two entries read the same, on each of those seven they differ; and the keys of
the entries are exactly the ones listed, none of which is a backoff cap. -/
theorem same_supervision_policy :
    (∀ a ∈ apps,
      a.get "autorestart" = some (.bool true) ∧
      a.get "watch" = some (.bool false) ∧
      a.get "max_memory_restart" = some (.str "1G") ∧
      a.get "exp_backoff_restart_delay" = some (.num 100) ∧
      a.get "restart_delay" = some (.num 1000) ∧
      a.get "max_restarts" = some (.num 10) ∧
      a.get "merge_logs" = some (.bool true) ∧
      a.get "time" = some (.bool true)) ∧
    (∀ k : String,
      k ∉ ["name", "script", "args", "interpreter", "env", "error_file", "out_file"] →
      app_rag.get k = app_tunnel.get k) ∧
    (∀ k ∈ ["name", "script", "args", "interpreter", "env", "error_file", "out_file"],
      app_rag.get k ≠ app_tunnel.get k) ∧
    apps.map JsObject.keys =
      [ ["name", "script", "args", "interpreter", "env", "autorestart", "watch",
         "max_memory_restart", "exp_backoff_restart_delay", "restart_delay", "max_restarts",
         "error_file", "out_file", "merge_logs", "time"],
        ["name", "script", "args", "autorestart", "watch",
         "max_memory_restart", "exp_backoff_restart_delay", "restart_delay", "max_restarts",
         "error_file", "out_file", "merge_logs", "time"] ] := by
  refine ⟨by decide, ?_, by decide, by decide⟩
  intro k hk
  simp only [List.mem_cons, List.mem_singleton, List.not_mem_nil, or_false, not_or] at hk
  obtain ⟨h1, h2, h3, h4, h5, h6, h7⟩ := hk
  simp only [app_rag, app_tunnel, get_cons, get_nil, h1, h2, h3, h4, h5, h6, h7, if_false]

/-! ## The restart policy on the configured parameters -/

/-- What the loader reads from each entry of `apps`: automatic restart, a cap
of 10 restarts, a delay of 1000 ms and a backoff base of 100 ms. -/
theorem loadSpec_apps :
    ∀ a ∈ apps, ∃ s, loadSpec a = some s ∧ s.autorestart = true ∧ s.maxRestarts = some 10 ∧
      s.restartDelayMs = 1000 ∧ s.expBackoffBaseMs = 100 := by
  decide

/-- The backoff delay never exceeds the cap. -/
theorem backoffDelay_le_cap (d b k capMs : Nat) : backoffDelay d b k capMs ≤ capMs := by
  unfold backoffDelay
  exact Nat.min_le_right _ _

/-- The backoff delay does not decrease when the restart count grows by one. -/
theorem backoffDelay_le_succ (d b k capMs : Nat) :
    backoffDelay d b k capMs ≤ backoffDelay d b (k + 1) capMs := by
  unfold backoffDelay
  have hpow : 2 ^ k ≤ 2 ^ (k + 1) := Nat.pow_le_pow_right (by decide) (Nat.le_succ k)
  have hmul : b * 2 ^ k ≤ b * 2 ^ (k + 1) := Nat.mul_le_mul_left b hpow
  have hsum : d + b * 2 ^ k ≤ d + b * 2 ^ (k + 1) := Nat.add_le_add_left hmul d
  exact min_le_min hsum (Nat.le_refl capMs)

/-- One exit below the cap: the policy restarts after the backoff delay, the
process runs again and the restart is counted. -/
theorem superviseExit_below_cap (capMs cap : Nat) (st : ProcessState) (ev : ExitEvent)
    (pid : Nat) (hauto : st.spec.autorestart = true) (hcap : st.spec.maxRestarts = some cap)
    (hlt : st.restartCount < cap) :
    superviseExit capMs st ev pid =
      ({ restart := true,
         delayMs := backoffDelay st.spec.restartDelayMs st.spec.expBackoffBaseMs
           st.restartCount capMs },
       { spec := st.spec, pid := some pid, status := Status.Running,
         restartCount := st.restartCount + 1,
         lastExitCode := some ev.code, lastExitTime := some ev.time }) := by
  have hnot : ¬ cap ≤ st.restartCount := Nat.not_le.mpr hlt
  simp [superviseExit, onExit, hauto, hcap, hnot]

/-- One exit at the cap: no restart, no delay, and the process has failed
permanently with its restart count unchanged. -/
theorem superviseExit_at_cap (capMs cap : Nat) (st : ProcessState) (ev : ExitEvent)
    (pid : Nat) (hauto : st.spec.autorestart = true) (hcap : st.spec.maxRestarts = some cap)
    (hge : cap ≤ st.restartCount) :
    superviseExit capMs st ev pid =
      ({ restart := false, delayMs := 0 },
       { spec := st.spec, pid := none, status := Status.FailedPermanently,
         restartCount := st.restartCount,
         lastExitCode := some ev.code, lastExitTime := some ev.time }) := by
  simp [superviseExit, onExit, hauto, hcap, hge]

/-- A run of consecutive exits under a cap, from any state that has not passed
the cap: the decisions are restarts with the backoff delays until the cap is
used up and `{false, 0}` from then on, the restarts made are counted, and the
process is Running while the cap holds and FailedPermanently after. -/
theorem superviseExits_capped (capMs cap : Nat) :
    ∀ (evs : List (ExitEvent × Nat)) (st : ProcessState),
      st.spec.autorestart = true → st.spec.maxRestarts = some cap → st.restartCount ≤ cap →
      (superviseExits capMs st evs).2.spec = st.spec ∧
      (superviseExits capMs st evs).1.length = evs.length ∧
      restartsIn (superviseExits capMs st evs).1 = min evs.length (cap - st.restartCount) ∧
      (superviseExits capMs st evs).2.restartCount =
        st.restartCount + min evs.length (cap - st.restartCount) ∧
      (∀ k d, (superviseExits capMs st evs).1.get? k = some d →
        (k < cap - st.restartCount →
          d = { restart := true,
                delayMs := backoffDelay st.spec.restartDelayMs st.spec.expBackoffBaseMs
                  (st.restartCount + k) capMs }) ∧
        (cap - st.restartCount ≤ k → d = { restart := false, delayMs := 0 })) ∧
      (superviseExits capMs st evs).2.status =
        (if evs.length = 0 then st.status
         else if evs.length ≤ cap - st.restartCount then Status.Running
         else Status.FailedPermanently) := by
  intro evs
  induction evs with
  | nil =>
    intro st _ _ _
    simp [superviseExits, restartsIn]
  | cons e rest ih =>
    intro st hauto hcap hle
    obtain ⟨ev, pid⟩ := e
    by_cases hlt : st.restartCount < cap
    · have hstep := superviseExit_below_cap capMs cap st ev pid hauto hcap hlt
      obtain ⟨h1, h2, h3, h4, h5, h6⟩ :=
        ih { spec := st.spec, pid := some pid, status := Status.Running,
             restartCount := st.restartCount + 1,
             lastExitCode := some ev.code, lastExitTime := some ev.time }
          hauto hcap hlt
      simp only [superviseExits, hstep]
      simp only at h1 h2 h3 h4 h5 h6
      refine ⟨h1, by simp [h2], ?_, ?_, ?_, ?_⟩
      · simp only [restartsIn, List.filter_cons, if_true, List.length_cons] at h3 ⊢
        rw [h3]; omega
      · rw [h4]; simp only [List.length_cons]; omega
      · intro k d hk
        cases k with
        | zero =>
          simp only [List.get?_cons_zero, Option.some.injEq] at hk
          subst hk
          exact ⟨fun _ => by simp, fun h => by omega⟩
        | succ k =>
          simp only [List.get?_cons_succ] at hk
          obtain ⟨ha, hb⟩ := h5 k d hk
          refine ⟨fun h => ?_, fun h => ?_⟩
          · have := ha (by omega)
            rw [this, Nat.add_assoc, Nat.add_comm 1 k]
          · exact hb (by omega)
      · rw [h6]
        simp only [List.length_cons]
        by_cases hr : rest.length = 0
        · have : 1 ≤ cap - st.restartCount := by omega
          simp [hr, this]
        · by_cases hr2 : rest.length ≤ cap - (st.restartCount + 1)
          · have : rest.length + 1 ≤ cap - st.restartCount := by omega
            simp [hr, hr2, this]
          · have : ¬ rest.length + 1 ≤ cap - st.restartCount := by omega
            simp [hr, hr2, this]
    · have hge : cap ≤ st.restartCount := Nat.le_of_not_lt hlt
      have hstep := superviseExit_at_cap capMs cap st ev pid hauto hcap hge
      obtain ⟨h1, h2, h3, h4, h5, h6⟩ :=
        ih { spec := st.spec, pid := none, status := Status.FailedPermanently,
             restartCount := st.restartCount,
             lastExitCode := some ev.code, lastExitTime := some ev.time }
          hauto hcap hle
      simp only [superviseExits, hstep]
      simp only at h1 h2 h3 h4 h5 h6
      refine ⟨h1, by simp [h2], ?_, ?_, ?_, ?_⟩
      · simp only [restartsIn, List.filter_cons, List.length_cons] at h3 ⊢
        simp only [Bool.false_eq_true, if_false]
        rw [h3]; omega
      · rw [h4]; simp only [List.length_cons]; omega
      · intro k d hk
        cases k with
        | zero =>
          simp only [List.get?_cons_zero, Option.some.injEq] at hk
          subst hk
          exact ⟨fun h => by omega, fun _ => rfl⟩
        | succ k =>
          simp only [List.get?_cons_succ] at hk
          obtain ⟨_, hb⟩ := h5 k d hk
          exact ⟨fun h => by omega, fun _ => hb (by omega)⟩
      · rw [h6]
        simp only [List.length_cons]
        have h0 : cap - st.restartCount = 0 := by omega
        by_cases hr : rest.length = 0
        · simp [hr, h0]
        · have : ¬ rest.length ≤ 0 := by omega
          simp [hr, h0, this]

/-- C4: for each entry of `apps` (autorestart true, max_restarts 10), the
restart policy run over any sequence of consecutive exits issues at most 10
restart decisions (exactly one per exit up to the tenth); every decision from
the eleventh exit on, where restartCount has reached 10, is `{false, 0}`; up
to ten exits the process is Running with one restart counted per exit, after
more than ten it is FailedPermanently with restartCount 10, and whatever exits
follow it stays FailedPermanently. -/
theorem restart_cap_of_apps (a : JsObject) (ha : a ∈ apps) (s : ProcessSpec)
    (hs : loadSpec a = some s) (capMs pid : Nat) (evs : List (ExitEvent × Nat)) :
    s.autorestart = true ∧ s.maxRestarts = some 10 ∧
    restartsIn (superviseExits capMs (launch s pid) evs).1 ≤ 10 ∧
    restartsIn (superviseExits capMs (launch s pid) evs).1 = min evs.length 10 ∧
    (∀ k d, (superviseExits capMs (launch s pid) evs).1.get? k = some d →
      (k < 10 → d.restart = true) ∧ (10 ≤ k → d = { restart := false, delayMs := 0 })) ∧
    (∀ (st : ProcessState) (ev : ExitEvent), st.spec = s → st.restartCount = 10 →
      onExit capMs st ev =
        ({ restart := false, delayMs := 0 }, { st with status := Status.FailedPermanently })) ∧
    (evs.length ≤ 10 →
      (superviseExits capMs (launch s pid) evs).2.status = Status.Running ∧
      (superviseExits capMs (launch s pid) evs).2.restartCount = evs.length) ∧
    (10 < evs.length →
      (superviseExits capMs (launch s pid) evs).2.status = Status.FailedPermanently ∧
      (superviseExits capMs (launch s pid) evs).2.restartCount = 10 ∧
      ∀ later : List (ExitEvent × Nat),
        (superviseExits capMs (superviseExits capMs (launch s pid) evs).2 later).2.status =
          Status.FailedPermanently) := by
  obtain ⟨s', hs', hauto, hcap, _, _⟩ := loadSpec_apps a ha
  have hss : s' = s := Option.some.inj (hs'.symm.trans hs)
  subst hss
  obtain ⟨h1, _, h3, h4, h5, h6⟩ :=
    superviseExits_capped capMs 10 evs (launch s' pid) hauto hcap (Nat.zero_le 10)
  have hrc : (launch s' pid).restartCount = 0 := rfl
  have hst : (launch s' pid).status = Status.Running := rfl
  rw [hrc] at h3 h4 h5 h6
  rw [hst] at h6
  simp only [Nat.sub_zero, Nat.zero_add] at h3 h4 h5 h6
  refine ⟨hauto, hcap, ?_, h3, ?_, ?_, ?_, ?_⟩
  · rw [h3]; exact Nat.min_le_right _ _
  · intro k d hk
    obtain ⟨ha', hb'⟩ := h5 k d hk
    exact ⟨fun h => by rw [ha' h], hb'⟩
  · intro st ev hspec hcount
    subst hspec
    simp [onExit, hauto, hcap, hcount]
  · intro hlen
    refine ⟨?_, ?_⟩
    · rw [h6]
      by_cases h0 : evs.length = 0
      · simp [h0]
      · simp [h0, hlen]
    · rw [h4]; omega
  · intro hlen
    have hfail : (superviseExits capMs (launch s' pid) evs).2.status =
        Status.FailedPermanently := by
      rw [h6]
      have h0 : ¬ evs.length = 0 := by omega
      have h10 : ¬ evs.length ≤ 10 := by omega
      simp [h0, h10]
    have hcount : (superviseExits capMs (launch s' pid) evs).2.restartCount = 10 := by
      rw [h4]; omega
    refine ⟨hfail, hcount, ?_⟩
    intro later
    have hauto2 : (superviseExits capMs (launch s' pid) evs).2.spec.autorestart = true := by
      rw [h1]; exact hauto
    have hcap2 : (superviseExits capMs (launch s' pid) evs).2.spec.maxRestarts = some 10 := by
      rw [h1]; exact hcap
    obtain ⟨_, _, _, _, _, g6⟩ :=
      superviseExits_capped capMs 10 later (superviseExits capMs (launch s' pid) evs).2
        hauto2 hcap2 (Nat.le_of_eq hcount)
    rw [g6, hfail, hcount]
    by_cases h0 : later.length = 0
    · simp [h0]
    · simp [h0]

/-- C4 at a concrete input: the tunnel entry, a cap of 15000 ms and twelve
exits in a row give ten restarts and a process that has failed permanently. -/
theorem restart_cap_of_apps_witness :
    app_tunnel ∈ apps ∧
    restartsIn (superviseExits 15000
      (launch
        { name := "fbl-ota-tunnel", command := "cloudflared",
          args := ["tunnel", "--config",
            "/Users/abdelazizmoustafa/Desktop/prj/simple_rag/cloudflared.yml", "run"],
          env := [], maxMemoryBytes := some 1073741824, autorestart := true,
          maxRestarts := some 10, restartDelayMs := 1000, expBackoffBaseMs := 100,
          stdoutPath := "logs/tunnel-out.log", stderrPath := "logs/tunnel-err.log",
          mergeLogs := true } 4242)
      (List.replicate 12 ({ code := 1, signal := none, time := 0 }, 4243))).1 = 10 ∧
    (superviseExits 15000
      (launch
        { name := "fbl-ota-tunnel", command := "cloudflared",
          args := ["tunnel", "--config",
            "/Users/abdelazizmoustafa/Desktop/prj/simple_rag/cloudflared.yml", "run"],
          env := [], maxMemoryBytes := some 1073741824, autorestart := true,
          maxRestarts := some 10, restartDelayMs := 1000, expBackoffBaseMs := 100,
          stdoutPath := "logs/tunnel-out.log", stderrPath := "logs/tunnel-err.log",
          mergeLogs := true } 4242)
      (List.replicate 12 ({ code := 1, signal := none, time := 0 }, 4243))).2.status =
        Status.FailedPermanently :=
  have h := restart_cap_of_apps app_tunnel (by decide) _ (by decide) 15000 4242
    (List.replicate 12 ({ code := 1, signal := none, time := 0 }, 4243))
  ⟨by decide, h.2.2.2.1, (h.2.2.2.2.2.2.2 (by decide)).1⟩

/-- C5: with the restart timing of each entry of `apps` (restart_delay 1000,
exp_backoff_restart_delay 100) and any cap, the backoff delay at restart count
k is min(1000 + 100 * 2^k, capMs); it does not decrease from k to k + 1 and
never exceeds the cap. -/
theorem backoff_monotone_bounded_of_apps (a : JsObject) (ha : a ∈ apps) (s : ProcessSpec)
    (hs : loadSpec a = some s) (capMs k : Nat) :
    a.get "restart_delay" = some (.num 1000) ∧
    a.get "exp_backoff_restart_delay" = some (.num 100) ∧
    backoffDelay s.restartDelayMs s.expBackoffBaseMs k capMs = min (1000 + 100 * 2 ^ k) capMs ∧
    backoffDelay s.restartDelayMs s.expBackoffBaseMs k capMs ≤
      backoffDelay s.restartDelayMs s.expBackoffBaseMs (k + 1) capMs ∧
    backoffDelay s.restartDelayMs s.expBackoffBaseMs k capMs ≤ capMs := by
  obtain ⟨s', hs', _, _, hd, hb⟩ := loadSpec_apps a ha
  have hss : s' = s := Option.some.inj (hs'.symm.trans hs)
  subst hss
  have hkeys : ∀ b ∈ apps, b.get "restart_delay" = some (.num 1000) ∧
      b.get "exp_backoff_restart_delay" = some (.num 100) := by decide
  refine ⟨(hkeys a ha).1, (hkeys a ha).2, ?_, backoffDelay_le_succ _ _ _ _,
    backoffDelay_le_cap _ _ _ _⟩
  rw [hd, hb]
  rfl

/-- C5 at a concrete input: the server entry, a cap of 15000 ms and restart
counts 3 and 4 give the delays 1800 ms and 2600 ms, both under the cap. -/
theorem backoff_monotone_bounded_of_apps_witness :
    app_rag ∈ apps ∧
    backoffDelay 1000 100 3 15000 = min (1000 + 100 * 2 ^ 3) 15000 ∧
    backoffDelay 1000 100 3 15000 ≤ backoffDelay 1000 100 (3 + 1) 15000 ∧
    backoffDelay 1000 100 3 15000 ≤ 15000 :=
  have h := backoff_monotone_bounded_of_apps app_rag (by decide)
    { name := "fbl-ota-rag", command := "uvicorn",
      args := ["main:app", "--host", "0.0.0.0", "--port", "8000"],
      env := [("NODE_ENV", "production")], maxMemoryBytes := some 1073741824,
      autorestart := true, maxRestarts := some 10, restartDelayMs := 1000,
      expBackoffBaseMs := 100, stdoutPath := "logs/out.log", stderrPath := "logs/err.log",
      mergeLogs := true } (by decide) 15000 3
  ⟨by decide, h.2.2.1, h.2.2.2.1, h.2.2.2.2⟩

/-- C6, as the formula computes: with the restart timing of each entry of
`apps`, no jitter and a cap that does not bind (at least 1200 ms), the delay
is 1100 ms for the first restart (restartCount 0) and 1200 ms for the second
(restartCount 1); with maxRestarts 2, three exits in a row give these two
restarts and then no restart, with status FailedPermanently. -/
theorem scenario_delays_of_apps (a : JsObject) (ha : a ∈ apps) (s : ProcessSpec)
    (hs : loadSpec a = some s) (capMs : Nat) (hcap : 1000 + 100 * 2 ^ 1 ≤ capMs)
    (pid : Nat) (e1 e2 e3 : ExitEvent × Nat) :
    backoffDelay s.restartDelayMs s.expBackoffBaseMs 0 capMs = 1100 ∧
    backoffDelay s.restartDelayMs s.expBackoffBaseMs 1 capMs = 1200 ∧
    (superviseExits capMs (launch { s with maxRestarts := some 2 } pid) [e1, e2, e3]).1 =
      [ { restart := true, delayMs := 1100 }, { restart := true, delayMs := 1200 },
        { restart := false, delayMs := 0 } ] ∧
    (superviseExits capMs (launch { s with maxRestarts := some 2 } pid) [e1, e2, e3]).2.status =
      Status.FailedPermanently ∧
    (superviseExits capMs (launch { s with maxRestarts := some 2 } pid)
      [e1, e2, e3]).2.restartCount = 2 := by
  obtain ⟨s', hs', hauto, _, hd, hb⟩ := loadSpec_apps a ha
  have hss : s' = s := Option.some.inj (hs'.symm.trans hs)
  subst hss
  have h0 : backoffDelay 1000 100 0 capMs = 1100 := by
    unfold backoffDelay
    exact Nat.min_eq_left (by omega)
  have h1 : backoffDelay 1000 100 1 capMs = 1200 := by
    unfold backoffDelay
    exact Nat.min_eq_left (by omega)
  obtain ⟨ev1, p1⟩ := e1
  obtain ⟨ev2, p2⟩ := e2
  obtain ⟨ev3, p3⟩ := e3
  rw [hd, hb]
  refine ⟨h0, h1, ?_, ?_, ?_⟩ <;>
    simp [superviseExits, superviseExit, onExit, launch, hauto, hd, hb, h0, h1]

/-- C6 at a concrete input: the server entry with a cap of 15000 ms. -/
theorem scenario_delays_of_apps_witness :
    app_rag ∈ apps ∧ 1000 + 100 * 2 ^ 1 ≤ 15000 ∧
    backoffDelay 1000 100 0 15000 = 1100 ∧ backoffDelay 1000 100 1 15000 = 1200 :=
  have h := scenario_delays_of_apps app_rag (by decide)
    { name := "fbl-ota-rag", command := "uvicorn",
      args := ["main:app", "--host", "0.0.0.0", "--port", "8000"],
      env := [("NODE_ENV", "production")], maxMemoryBytes := some 1073741824,
      autorestart := true, maxRestarts := some 10, restartDelayMs := 1000,
      expBackoffBaseMs := 100, stdoutPath := "logs/out.log", stderrPath := "logs/err.log",
      mergeLogs := true } (by decide) 15000 (by decide) 1
    ({ code := 1, signal := none, time := 10 }, 2)
    ({ code := 1, signal := none, time := 20 }, 3)
    ({ code := 1, signal := none, time := 30 }, 4)
  ⟨by decide, by decide, h.1, h.2.1⟩

/-- C6 fails as stated: with restart_delay 1000 and exp_backoff_restart_delay
100, as both entries of `apps` give them, and a cap of 15000 ms that does not
bind, the formula gives 1200 ms at restartCount 1, not 1300 ms. -/
theorem scenario_second_delay_is_not_1300 :
    (∀ a ∈ apps, a.get "restart_delay" = some (.num 1000) ∧
      a.get "exp_backoff_restart_delay" = some (.num 100)) ∧
    1000 + 100 * 2 ^ 1 ≤ 15000 ∧
    backoffDelay 1000 100 0 15000 = 1100 ∧
    backoffDelay 1000 100 1 15000 = 1200 ∧
    backoffDelay 1000 100 1 15000 ≠ 1300 := by
  decide

end Ecosystem
